import Mathlib

/-!
Shallow embedding of `programs/util.c` (core-count detection, `UTIL_countCores`).

The C file selects, by preprocessor conditionals, one platform backend:
Windows (`GetLogicalProcessorInformation` walk), Apple (`sysctlbyname`),
Linux (`sysconf` + `/proc/cpuinfo` scan), FreeBSD (`sysctlbyname` pair with
`sysconf` fallback), generic POSIX (`sysconf`), and an unknown-platform
constant.  Each backend is embedded as a pure function of the environment it
queries (the OS answers become explicit arguments), returning either a value
(`CRes.ret`) or a fatal process termination (`CRes.fatal status`) for the
`exit(1)` paths.  The process-wide `static int numCores` cache is embedded by
explicit state passing in `UTIL_countCoresCached`.
-/

/-- Result of one call to a backend: either a returned `int`, or the process
terminated via `exit status`. -/
inductive CRes where
  | ret (n : Int)
  | fatal (status : Nat)
deriving DecidableEq, Repr

/-! ## Windows backend (`#if defined(_WIN32)`), util.c lines 37-128 -/

/-- `LOGICAL_PROCESSOR_RELATIONSHIP` values that can tag a topology entry. -/
inductive WinRelationship where
  | relationProcessorCore
  | relationNumaNode
  | relationCache
  | relationProcessorPackage
deriving DecidableEq, Repr

/-- One `SYSTEM_LOGICAL_PROCESSOR_INFORMATION` entry: a relationship tag and
the `ULONG_PTR ProcessorMask` bitmask (a 64-bit machine word, modelled as a
`Nat`; the code only ever inspects its low 64 bits). -/
structure WinEntry where
  relationship : WinRelationship
  processorMask : Nat
deriving DecidableEq, Repr

/-- `sizeof(ULONG_PTR) * 8` on a 64-bit build. -/
def ulongPtrBits : Nat := 64

/-- `sizeof(SYSTEM_LOGICAL_PROCESSOR_INFORMATION)` on a 64-bit build. -/
def entrySizeBytes : Nat := 32

/-- The `for (i = 0; i <= LSHIFT; ++i)` loop body of `CountSetBits`
(util.c lines 50-54): test `bitMask & bitTest`, halve `bitTest`, iterate a
fixed number of times. -/
def csbLoop (bitMask : Nat) : Nat → Nat → Nat
  | _, 0 => 0
  | bitTest, n + 1 =>
      (if bitMask &&& bitTest ≠ 0 then 1 else 0) + csbLoop bitMask (bitTest / 2) n

/-- `CountSetBits` (util.c lines 43-57): `bitTest` starts at
`1 << (sizeof(ULONG_PTR)*8 - 1)` and the loop runs `sizeof(ULONG_PTR)*8`
times, so bits 63 down to 0 are tested. -/
def CountSetBits (bitMask : Nat) : Nat :=
  csbLoop bitMask (2 ^ (ulongPtrBits - 1)) ulongPtrBits

/-- Mathematical population count (number of 1s in the binary expansion),
written with explicit fuel so that it is structurally recursive; the fuel
`n` is always sufficient for the argument `n` because halving a positive
number strictly decreases it. -/
def popcountAux : Nat → Nat → Nat
  | 0, _ => 0
  | _, 0 => 0
  | fuel + 1, n + 1 => (n + 1) % 2 + popcountAux fuel ((n + 1) / 2)

/-- Population count of a natural number. -/
def popcount (n : Nat) : Nat := popcountAux n n

/-- The walk over the topology buffer (util.c lines 105-113):
`while (byteOffset + sizeof(SYSTEM_LOGICAL_PROCESSOR_INFORMATION) <= returnLength)`
reading one entry per iteration, adding `CountSetBits(ptr->ProcessorMask)`
for entries whose `Relationship == RelationProcessorCore`. -/
def winWalk (returnLength : Nat) : List WinEntry → Nat → Nat
  | [], _ => 0
  | e :: rest, byteOffset =>
      if byteOffset + entrySizeBytes ≤ returnLength then
        (if e.relationship = WinRelationship.relationProcessorCore
         then CountSetBits e.processorMask else 0)
        + winWalk returnLength rest (byteOffset + entrySizeBytes)
      else 0

/-- Outcome of resolving and calling `GetLogicalProcessorInformation`:
the entry point may be unresolvable (`GetProcAddress` returns `NULL`,
util.c line 79), the call may fail with an error other than
`ERROR_INSUFFICIENT_BUFFER` (line 95), or—after the insufficient-buffer
retry—the OS fills a buffer of `returnLength` bytes with topology entries. -/
inductive GlpiOutcome where
  | noEntryPoint
  | otherError
  | topology (entries : List WinEntry) (returnLength : Nat)
deriving DecidableEq, Repr

/-- Environment queried by the Windows backend. `mallocOk` is whether the
`malloc(returnLength)` of the retry loop succeeds (util.c line 89-94);
`sysinfoProcs` is `GetSystemInfo`'s `dwNumberOfProcessors` (a `DWORD`). -/
structure WinEnv where
  outcome : GlpiOutcome
  mallocOk : Bool
  sysinfoProcs : Nat
deriving DecidableEq, Repr

/-- The `failed:` fallback of the Windows backend (util.c lines 120-127):
`numCores = sysinfo.dwNumberOfProcessors; if (numCores == 0) numCores = 1`. -/
def winFallback (procs : Nat) : CRes :=
  CRes.ret (if procs = 0 then 1 else (procs : Int))

/-- `UTIL_countCores` for Windows (util.c lines 59-128), on the uncached
path.  With the buffer-growth protocol of lines 83-101: a positive required
length forces one insufficient-buffer round and a `malloc` (whose failure is
`perror; exit(1)`), after which the call succeeds and the walk runs; a zero
required length makes the very first call succeed with an empty buffer. -/
def windowsCountCores (env : WinEnv) : CRes :=
  match env.outcome with
  | GlpiOutcome.noEntryPoint => winFallback env.sysinfoProcs
  | GlpiOutcome.otherError => winFallback env.sysinfoProcs
  | GlpiOutcome.topology entries returnLength =>
      if 0 < returnLength ∧ env.mallocOk = false then CRes.fatal 1
      else CRes.ret ((winWalk returnLength entries 0 : Nat) : Int)

/-! ## Basic facts about `popcount`, `CountSetBits` and the walk -/

theorem popcountAux_zero (fuel : Nat) : popcountAux fuel 0 = 0 := by
  cases fuel <;> rfl

theorem popcountAux_fuel_irrel (f₁ : Nat) :
    ∀ f₂ n, n ≤ f₁ → n ≤ f₂ → popcountAux f₁ n = popcountAux f₂ n := by
  induction f₁ with
  | zero =>
      intro f₂ n h₁ _
      interval_cases n
      simp [popcountAux_zero]
  | succ f ih =>
      intro f₂ n h₁ h₂
      match n, f₂ with
      | 0, f₂ => simp [popcountAux_zero]
      | m + 1, 0 => omega
      | m + 1, g + 1 =>
          show (m + 1) % 2 + popcountAux f ((m + 1) / 2)
              = (m + 1) % 2 + popcountAux g ((m + 1) / 2)
          have hf : (m + 1) / 2 ≤ f := by omega
          have hg : (m + 1) / 2 ≤ g := by omega
          rw [ih _ _ hf hg]

/-- Unfolding equation for `popcount` at a positive argument. -/
theorem popcount_succ (m : Nat) :
    popcount (m + 1) = (m + 1) % 2 + popcount ((m + 1) / 2) := by
  show (m + 1) % 2 + popcountAux m ((m + 1) / 2) = (m + 1) % 2 + popcount ((m + 1) / 2)
  have h1 : (m + 1) / 2 ≤ m := by omega
  rw [popcountAux_fuel_irrel m ((m + 1) / 2) ((m + 1) / 2) h1 le_rfl]
  rfl

/-- `popcount` of `2*m + r` with `r < 2`: the low bit contributes `r`. -/
theorem popcount_bit (m r : Nat) (hr : r < 2) :
    popcount (2 * m + r) = r + popcount m := by
  rcases Nat.eq_zero_or_pos (2 * m + r) with h0 | hpos
  · have hm : m = 0 := by omega
    have hr0 : r = 0 := by omega
    subst hm; subst hr0; rfl
  · obtain ⟨k, hk⟩ : ∃ k, 2 * m + r = k + 1 := ⟨2 * m + r - 1, by omega⟩
    rw [hk, popcount_succ]
    have h2 : (k + 1) % 2 = r := by omega
    have h3 : (k + 1) / 2 = m := by omega
    rw [h2, h3]

theorem popcount_pos (n : Nat) (hn : n ≠ 0) : 1 ≤ popcount n := by
  induction n using Nat.strong_induction_on with
  | _ n ih =>
      rcases Nat.eq_zero_or_pos (n % 2) with h2 | h2
      · have hhalf : n / 2 ≠ 0 := by omega
        have ih' := ih (n / 2) (by omega) hhalf
        have hthis := popcount_bit (n / 2) 0 (by omega)
        have hae : 2 * (n / 2) + 0 = n := by omega
        rw [hae] at hthis
        omega
      · have hthis := popcount_bit (n / 2) 1 (by omega)
        have hae : 2 * (n / 2) + 1 = n := by omega
        rw [hae] at hthis
        omega

/-- `popcount (2^k * t + a) = t + popcount a` when `a < 2^k` and `t ≤ 1`. -/
theorem popcount_pow_mul_add (k : Nat) :
    ∀ t a, a < 2 ^ k → t ≤ 1 → popcount (2 ^ k * t + a) = t + popcount a := by
  induction k with
  | zero =>
      intro t a ha ht
      have ha0 : a = 0 := by omega
      subst ha0
      interval_cases t
      · rfl
      · rfl
  | succ k ih =>
      intro t a ha ht
      have hpow : 2 ^ (k + 1) = 2 ^ k * 2 := by rw [pow_succ]
      have hsplit : 2 ^ (k + 1) * t + a = 2 * (2 ^ k * t + a / 2) + a % 2 := by
        have hq : 2 ^ (k + 1) * t = 2 * (2 ^ k * t) := by ring
        omega
      rw [hsplit, popcount_bit _ _ (by omega)]
      have hhalf : a / 2 < 2 ^ k := by omega
      rw [ih t (a / 2) hhalf ht]
      have ha' : popcount a = a % 2 + popcount (a / 2) := by
        have := popcount_bit (a / 2) (a % 2) (by omega)
        have hae : 2 * (a / 2) + a % 2 = a := by omega
        rw [hae] at this
        exact this
      omega

/-- The bit test of `CountSetBits`: `bitMask & (2^k)` is nonzero exactly when
bit `k` of `bitMask` is set, i.e. when `bitMask / 2^k % 2 = 1`. -/
theorem and_two_pow_ne_zero (m k : Nat) :
    (m &&& 2 ^ k ≠ 0) ↔ m / 2 ^ k % 2 = 1 := by
  rw [Nat.and_two_pow]
  rcases hb : m.testBit k with hf | ht
  · rw [Nat.testBit_to_div_mod] at hb
    simp only [Bool.toNat_false, zero_mul]
    simp at hb ⊢
    omega
  · rw [Nat.testBit_to_div_mod] at hb
    simp only [Bool.toNat_true, one_mul]
    have : 2 ^ k ≠ 0 := by positivity
    simp at hb
    simp [this, hb]

/-- The `CountSetBits` loop started at `bitTest = 2^k` with `k+1` iterations
counts exactly the set bits among bits `0..k`. -/
theorem csbLoop_eq_popcount (k : Nat) :
    ∀ m, csbLoop m (2 ^ k) (k + 1) = popcount (m % 2 ^ (k + 1)) := by
  induction k with
  | zero =>
      intro m
      show (if m &&& 1 ≠ 0 then 1 else 0) + csbLoop m 0 0 = popcount (m % 2)
      have h1 : m &&& 1 = m % 2 := Nat.and_one_is_mod m
      rcases Nat.mod_two_eq_zero_or_one m with h | h <;>
        simp [csbLoop, h1, h] <;> rfl
  | succ k ih =>
      intro m
      show (if m &&& 2 ^ (k + 1) ≠ 0 then 1 else 0) + csbLoop m (2 ^ (k + 1) / 2) (k + 1)
          = popcount (m % 2 ^ (k + 2))
      have hhalf : 2 ^ (k + 1) / 2 = 2 ^ k := by
        rw [pow_succ]
        omega
      rw [hhalf, ih m]
      have hmod : m % 2 ^ (k + 2) = m % 2 ^ (k + 1) + 2 ^ (k + 1) * (m / 2 ^ (k + 1) % 2) := by
        have : (2 : Nat) ^ (k + 2) = 2 ^ (k + 1) * 2 := by rw [pow_succ]
        rw [this, Nat.mod_mul]
      have hlt : m % 2 ^ (k + 1) < 2 ^ (k + 1) := Nat.mod_lt _ (by positivity)
      rw [hmod, Nat.add_comm (m % 2 ^ (k + 1)),
        popcount_pow_mul_add (k + 1) _ _ hlt (by omega)]
      rcases (Nat.mod_two_eq_zero_or_one (m / 2 ^ (k + 1))) with h | h
      · have : ¬(m &&& 2 ^ (k + 1) ≠ 0) := by
          rw [and_two_pow_ne_zero]
          omega
        simp [this, h]
      · have : m &&& 2 ^ (k + 1) ≠ 0 := by
          rw [and_two_pow_ne_zero]
          omega
        simp [this, h]

/-- `CountSetBits` computes the population count of the low 64 bits. -/
theorem CountSetBits_eq_popcount_mod (m : Nat) :
    CountSetBits m = popcount (m % 2 ^ 64) :=
  csbLoop_eq_popcount 63 m

/-- Per-entry contribution of the topology walk. -/
def coreContribution (e : WinEntry) : Nat :=
  if e.relationship = WinRelationship.relationProcessorCore
  then CountSetBits e.processorMask else 0

/-- Total contribution of a list of topology entries. -/
def coreSum (l : List WinEntry) : Nat := (l.map coreContribution).sum

/-- The walk started at offset `off` processes exactly the first
`(returnLength - off) / entrySizeBytes` entries. -/
theorem winWalk_eq_take (returnLength : Nat) :
    ∀ (l : List WinEntry) (off : Nat),
      winWalk returnLength l off
        = coreSum (l.take ((returnLength - off) / entrySizeBytes)) := by
  intro l
  induction l with
  | nil => intro off; simp [winWalk, coreSum]
  | cons e rest ih =>
      intro off
      show (if off + entrySizeBytes ≤ returnLength then _ else 0) = _
      have h32 : entrySizeBytes = 32 := rfl
      by_cases h : off + entrySizeBytes ≤ returnLength
      · have hdiv : (returnLength - off) / entrySizeBytes
            = (returnLength - (off + entrySizeBytes)) / entrySizeBytes + 1 := by
          rw [h32] at h ⊢
          omega
        rw [if_pos h, hdiv, ih (off + entrySizeBytes)]
        simp [coreSum, coreContribution]
      · have hdiv : (returnLength - off) / entrySizeBytes = 0 := by
          rw [h32] at h ⊢
          omega
        rw [if_neg h, hdiv]
        simp [coreSum]

/-! ## Apple backend (`#elif defined(__APPLE__)`), util.c lines 130-149 -/

/-- `UTIL_countCores` for Apple, on the uncached path.  The environment is
the outcome of `sysctlbyname("hw.logicalcpu", &numCores, ...)`:
`some v` when the call returns 0 having stored `v`, `none` when it returns
nonzero (util.c lines 141-147: on failure `numCores = 1`). -/
def appleCountCores (q : Option Int) : CRes :=
  match q with
  | some v => CRes.ret v
  | none => CRes.ret 1

/-! ## Generic POSIX backend, util.c lines 258-273 (also the Linux and
FreeBSD fallback, lines 162-166 and 250-254) -/

/-- `numCores = sysconf(_SC_NPROCESSORS_ONLN); if (numCores == -1) numCores = 1`. -/
def posixCountCores (sc : Int) : CRes :=
  CRes.ret (if sc = -1 then 1 else sc)

/-! ## Linux backend (`#elif defined(__linux__)`), util.c lines 151-216 -/

/-- `isdigit` over the ASCII range used by `atoi`. -/
def isDigitChar (c : Char) : Bool := '0' ≤ c && c ≤ '9'

/-- `isspace` characters skipped by `atoi`: space, `\t`, `\n`, `\v`, `\f`, `\r`. -/
def isSpaceChar (c : Char) : Bool :=
  c == ' ' || c == '\t' || c == '\n' || c == Char.ofNat 11 || c == Char.ofNat 12 || c == '\r'

/-- Digit-accumulation phase of `atoi`. -/
def atoiDigits : List Char → Int → Int
  | [], acc => acc
  | c :: rest, acc =>
      if isDigitChar c then atoiDigits rest (acc * 10 + ((c.toNat : Int) - ('0'.toNat : Int)))
      else acc

/-- Leading-whitespace skip of `atoi`. -/
def skipSpaces : List Char → List Char
  | [] => []
  | c :: rest => if isSpaceChar c then skipSpaces rest else c :: rest

/-- Optional-sign phase of `atoi`. -/
def atoiSigned : List Char → Int
  | '-' :: rest => - atoiDigits rest 0
  | '+' :: rest => atoiDigits rest 0
  | l => atoiDigits l 0

/-- C `atoi`, as used on `sep + 1` (util.c lines 193 and 202).  The `int`
overflow of giant inputs is not modelled (values in `/proc/cpuinfo` are
small). -/
def atoi (l : List Char) : Int := atoiSigned (skipSpaces l)

/-- `strncmp(buff, key, strlen(key)) == 0`: `key` is a byte-wise prefix of
the buffer (a NUL or any differing byte in the buffer breaks the match,
exactly as for NUL-terminated C strings modelled as NUL-free char lists). -/
def startsWithChars : List Char → List Char → Bool
  | [], _ => true
  | _ :: _, [] => false
  | p :: ps, c :: cs => p == c && startsWithChars ps cs

/-- `strchr(buff, ':')`: the suffix of the buffer beginning at the first
`':'`, scanning up to the C string terminator (a NUL byte embedded in the
line ends the search, as `strchr` stops at `'\0'`). -/
def strchrColon : List Char → Option (List Char)
  | [] => none
  | c :: rest =>
      if c == ':' then some (c :: rest)
      else if c == Char.ofNat 0 then none
      else strchrColon rest

/-- The test `*sep == '\0'` (util.c lines 188 and 197), where `sep` is the
pointer returned by `strchr`: true when the character `sep` points at is the
NUL terminator. -/
def sepAtNul (sep : List Char) : Bool :=
  match sep with
  | [] => true
  | c :: _ => c == Char.ofNat 0

/-- The `strncmp(buff, "cpu cores", 9)` block of the scan loop
(util.c lines 195-203).  `none` models `goto failed`. -/
def scanCores (buff : List Char) (siblings cpu_cores : Int) : Option (Int × Int) :=
  if startsWithChars ("cpu cores".toList) buff then
    match strchrColon buff with
    | none => none
    | some sep =>
        if sepAtNul sep then none
        else some (siblings, atoi (sep.drop 1))
  else some (siblings, cpu_cores)

/-- One iteration of the scan loop body (util.c lines 185-203): the
`"siblings"` block followed by the `"cpu cores"` block on the same buffer.
`none` models `goto failed`. -/
def scanLine (buff : List Char) (siblings cpu_cores : Int) : Option (Int × Int) :=
  if startsWithChars ("siblings".toList) buff then
    match strchrColon buff with
    | none => none
    | some sep =>
        if sepAtNul sep then none
        else scanCores buff (atoi (sep.drop 1)) cpu_cores
  else scanCores buff siblings cpu_cores

/-- Outcome of the `while (!feof(cpuinfo))` scan. -/
inductive ScanOut where
  | finished (siblings cpu_cores : Int)
  | abandoned
deriving DecidableEq, Repr

/-- The scan loop over the successive `fgets` results (util.c lines 184-207):
process each buffer in turn, jumping to `failed` as soon as one line is
declared malformed. -/
def scanLines : List (List Char) → Int → Int → ScanOut
  | [], siblings, cpu_cores => ScanOut.finished siblings cpu_cores
  | buff :: rest, siblings, cpu_cores =>
      match scanLine buff siblings cpu_cores with
      | none => ScanOut.abandoned
      | some (s, c) => scanLines rest s c

/-- The readable content of `/proc/cpuinfo`: the successive buffers returned
by `fgets` (each at most `BUF_SIZE - 1` characters in a real run; the model
allows any), and whether the read ended with `ferror` true rather than EOF
(util.c line 204: `else if (ferror(cpuinfo)) goto failed`). -/
structure CpuInfo where
  lines : List (List Char)
  readErr : Bool
deriving DecidableEq, Repr

/-- `UTIL_countCores` for Linux (util.c lines 156-216), on the uncached path.
`sc` is the `sysconf(_SC_NPROCESSORS_ONLN)` answer and `cpuinfo` is `none`
when `fopen("/proc/cpuinfo", "r")` fails.  The hyperthreading ratio of lines
208-210 is computed into `_ratio` and, exactly as in the source, never used:
every exit of the refinement block is `return numCores`. -/
def linuxCountCores (sc : Int) (cpuinfo : Option CpuInfo) : CRes :=
  if sc = -1 then CRes.ret 1
  else
    match cpuinfo with
    | none => CRes.ret sc
    | some f =>
        match scanLines f.lines 0 0 with
        | ScanOut.abandoned => CRes.ret sc
        | ScanOut.finished siblings cpu_cores =>
            if f.readErr then CRes.ret sc
            else
              let _ratio : Int :=
                if siblings ≠ 0 ∧ cpu_cores ≠ 0 ∧ siblings > cpu_cores
                then Int.tdiv siblings cpu_cores else 1
              CRes.ret sc

/-! ## FreeBSD backend (`#elif defined(__FreeBSD__)`), util.c lines 218-256
(modern path, `__FreeBSD_version >= 1300008`) -/

/-- The `errno` value `ENOENT`. -/
def ENOENT : Nat := 2

/-- Outcome of a `sysctlbyname` call that stores an `int` on success:
`ok v` when the call returns 0 having stored `v`, `error e` when it returns
nonzero with `errno = e`. -/
inductive SysctlOutcome where
  | ok (v : Int)
  | error (errno : Nat)
deriving DecidableEq, Repr

/-- `UTIL_countCores` for FreeBSD, on the uncached path.  `coresQ` is the
outcome of `sysctlbyname("kern.smp.cores", ...)` (`.ok c` on success,
`.error e` the `errno` on failure); `threadsQ` the outcome of
`sysctlbyname("kern.smp.threads_per_core", ...)`; `sc` the `sysconf`
fallback.  A failure of the first query with `errno != ENOENT` is
`perror(...); exit(1)` (util.c lines 242-245). -/
def freebsdCountCores (coresQ : SysctlOutcome) (threadsQ : Option Int) (sc : Int) : CRes :=
  match coresQ with
  | SysctlOutcome.ok c =>
      match threadsQ with
      | none => CRes.ret c
      | some t => CRes.ret (c * t)
  | SysctlOutcome.error e =>
      if e ≠ ENOENT then CRes.fatal 1
      else posixCountCores sc

/-! ## Unified entry point -/

/-- The platform selected by the preprocessor conditionals of util.c. -/
inductive Platform where
  | windows
  | apple
  | linux
  | freebsd
  | posixOther
  | unknown
deriving DecidableEq, Repr

/-- Everything the process environment can answer to the various backends. -/
structure Env where
  win : WinEnv
  appleLogical : Option Int
  sysconfOnln : Int
  cpuinfo : Option CpuInfo
  fbsdCores : SysctlOutcome
  fbsdThreads : Option Int
deriving DecidableEq, Repr

/-- `UTIL_countCores` on the uncached path (the `static int numCores` still
holds 0): dispatch to the backend selected by the preprocessor. -/
def UTIL_countCores (p : Platform) (env : Env) : CRes :=
  match p with
  | Platform.windows => windowsCountCores env.win
  | Platform.apple => appleCountCores env.appleLogical
  | Platform.linux => linuxCountCores env.sysconfOnln env.cpuinfo
  | Platform.freebsd => freebsdCountCores env.fbsdCores env.fbsdThreads env.sysconfOnln
  | Platform.posixOther => posixCountCores env.sysconfOnln
  | Platform.unknown => CRes.ret 1

/-- `UTIL_countCores` with the `static int numCores` cache made explicit.
Every backend except the unknown-platform one begins with
`if (numCores != 0) return numCores;`, and on every `return` statement the
value returned is the static `numCores` just assigned, so a computed value
is exactly what gets cached.  The unknown-platform backend (util.c lines
277-281) has no static at all.  Returns (call result, cache afterwards). -/
def UTIL_countCoresCached (p : Platform) (env : Env) (cache : Int) : CRes × Int :=
  match p with
  | Platform.unknown => (CRes.ret 1, cache)
  | _ =>
      if cache ≠ 0 then (CRes.ret cache, cache)
      else
        match UTIL_countCores p env with
        | CRes.ret v => (CRes.ret v, v)
        | CRes.fatal s => (CRes.fatal s, cache)

/-! ## Shared helper lemmas -/

/-- `CountSetBits` is the population count on the `ULONG_PTR` range. -/
theorem CountSetBits_eq_popcount (m : Nat) (hm : m < 2 ^ 64) :
    CountSetBits m = popcount m := by
  rw [CountSetBits_eq_popcount_mod, Nat.mod_eq_of_lt hm]

/-- The walk from offset 0 processes exactly the first
`returnLength / entrySizeBytes` entries. -/
theorem winWalk_from_start (returnLength : Nat) (entries : List WinEntry) :
    winWalk returnLength entries 0
      = coreSum (entries.take (returnLength / entrySizeBytes)) := by
  have h := winWalk_eq_take returnLength entries 0
  simpa using h

/-- Each entry of a list contributes at most the total `coreSum`. -/
theorem coreContribution_le_coreSum (e : WinEntry) (l : List WinEntry)
    (he : e ∈ l) : coreContribution e ≤ coreSum l := by
  induction l with
  | nil => cases he
  | cons x rest ih =>
      rcases List.mem_cons.1 he with rfl | hmem
      · show coreContribution e ≤ (coreContribution e) + coreSum rest
        omega
      · have := ih hmem
        show coreContribution e ≤ (coreContribution x) + coreSum rest
        omega

/-- `coreSum` is the sum of the population counts of the processor-core
entries, whenever every mask is in `ULONG_PTR` range. -/
theorem coreSum_eq_popcount_sum (l : List WinEntry)
    (hmask : ∀ e, e ∈ l → e.processorMask < 2 ^ 64) :
    coreSum l
      = ((l.filter
          (fun e => e.relationship == WinRelationship.relationProcessorCore)).map
          (fun e => popcount e.processorMask)).sum := by
  induction l with
  | nil => rfl
  | cons x rest ih =>
      have hx := hmask x (List.mem_cons_self x rest)
      have hrest : ∀ e, e ∈ rest → e.processorMask < 2 ^ 64 := by
        intro e he
        exact hmask e (List.mem_cons_of_mem x he)
      show (coreContribution x) + coreSum rest = _
      rw [List.filter_cons, ih hrest]
      by_cases hc : x.relationship = WinRelationship.relationProcessorCore
      · have hbe : (x.relationship == WinRelationship.relationProcessorCore) = true := by
          simp [hc]
        rw [hbe, if_pos rfl, List.map_cons, List.sum_cons]
        have hcx : coreContribution x = popcount x.processorMask := by
          rw [coreContribution, if_pos hc, CountSetBits_eq_popcount _ hx]
        omega
      · have hbe : (x.relationship == WinRelationship.relationProcessorCore) = false := by
          simp [hc]
        rw [hbe, if_neg (by simp)]
        have hcx : coreContribution x = 0 := by
          rw [coreContribution, if_neg hc]
        omega

/-- The Linux refinement never changes the returned value: for every
`sysconf` answer and every `/proc/cpuinfo` content, the Linux backend
returns exactly what the generic POSIX backend returns. -/
theorem linux_refinement_no_effect (sc : Int) (f : Option CpuInfo) :
    linuxCountCores sc f = posixCountCores sc := by
  by_cases h : sc = -1
  · simp [linuxCountCores, posixCountCores, h]
  · cases f with
    | none => simp [linuxCountCores, posixCountCores, h]
    | some fi =>
        cases hs : scanLines fi.lines 0 0 with
        | abandoned => simp [linuxCountCores, posixCountCores, h, hs]
        | finished s c =>
            by_cases hr : fi.readErr <;>
              simp [linuxCountCores, posixCountCores, h, hs, hr]

/-- The generic POSIX backend yields a positive count whenever `sysconf`
reports either the error sentinel or a positive value. -/
theorem posix_ret_pos (sc v : Int) (hsc : sc = -1 ∨ 1 ≤ sc)
    (h : posixCountCores sc = CRes.ret v) : 1 ≤ v := by
  rw [posixCountCores] at h
  by_cases hm : sc = -1
  · rw [if_pos hm] at h
    injection h with h
    omega
  · rw [if_neg hm] at h
    injection h with h
    rcases hsc with hsc | hsc
    · exact absurd hsc hm
    · omega

/-- On every platform but the unknown one, the cached entry point first
checks `numCores != 0`, and a freshly computed value is published to the
cache. -/
theorem cached_eq_of_not_unknown (p : Platform) (hp : p ≠ Platform.unknown)
    (env : Env) (cache : Int) :
    UTIL_countCoresCached p env cache =
      if cache ≠ 0 then (CRes.ret cache, cache)
      else
        match UTIL_countCores p env with
        | CRes.ret v => (CRes.ret v, v)
        | CRes.fatal s => (CRes.fatal s, cache) := by
  cases p
  case unknown => exact absurd rfl hp
  all_goals rfl

/-- A concrete environment reused by the witnesses: 4 cores everywhere. -/
def envA : Env :=
  { win := ⟨GlpiOutcome.noEntryPoint, true, 4⟩
    appleLogical := some 8
    sysconfOnln := 4
    cpuinfo := none
    fbsdCores := SysctlOutcome.ok 4
    fbsdThreads := some 2 }

/-- A second concrete environment, differing from `envA` in its `sysconf`
answer. -/
def envB : Env := { envA with sysconfOnln := 7 }

/-! ## Claim theorems -/

/-- C3: on Linux, for every content of the CPU-topology pseudo-file —
including one with "siblings" greater than "cpu cores" — the value returned
by `UTIL_countCores` equals the sysconf baseline unchanged: the
hyperthreading ratio is computed but never applied to the result. -/
theorem c3_linux_ratio_never_applied (env : Env) :
    UTIL_countCores Platform.linux env = posixCountCores env.sysconfOnln :=
  linux_refinement_no_effect env.sysconfOnln env.cpuinfo

/-- C6: on FreeBSD, if the physical-core sysctl query succeeds and the
threads-per-core query also succeeds, `UTIL_countCores` returns physical
cores times threads per core; if the second query fails, it returns the
physical-core count unscaled. -/
theorem c6_freebsd_scaling (c t sc : Int) :
    freebsdCountCores (SysctlOutcome.ok c) (some t) sc = CRes.ret (c * t)
    ∧ freebsdCountCores (SysctlOutcome.ok c) none sc = CRes.ret c :=
  ⟨rfl, rfl⟩

/-- C7: the spec requires that a matching line whose colon sits at the end
of the buffer abandon the refinement scan, but the code's guard
`*sep == '\0'` can never fire — `sep` points at the `':'` that `strchr`
just found — so the line `siblings:` is parsed as value 0 and scanning
continues: the scan of `["siblings:", "cpu cores: 4"]` completes with
`cpu_cores = 4` instead of jumping to the exit path. -/
theorem c7_colon_at_end_not_abandoned :
    scanLines [("siblings:".toList), ("cpu cores: 4".toList)] 0 0
      = ScanOut.finished 0 4 := by decide

/-- C8: on Apple platforms, whenever the single sysctl query for the
logical CPU count fails, `UTIL_countCores` returns exactly 1. -/
theorem c8_apple_failure_one (env : Env) (h : env.appleLogical = none) :
    UTIL_countCores Platform.apple env = CRes.ret 1 := by
  show appleCountCores env.appleLogical = CRes.ret 1
  rw [h]
  rfl

/-- C8 witness: a concrete environment whose Apple sysctl query fails. -/
theorem c8_apple_failure_one_witness :
    UTIL_countCores Platform.apple { envA with appleLogical := none } = CRes.ret 1 :=
  c8_apple_failure_one { envA with appleLogical := none } rfl

/-- C9: on Windows, if the logical-processor enumeration entry point cannot
be resolved, or a non-buffer-size error occurs while calling it,
`UTIL_countCores` returns the system-info logical-processor count, replaced
by 1 when that count is 0. -/
theorem c9_windows_fallback (env : Env)
    (h : env.win.outcome = GlpiOutcome.noEntryPoint
       ∨ env.win.outcome = GlpiOutcome.otherError) :
    UTIL_countCores Platform.windows env
      = CRes.ret (if env.win.sysinfoProcs = 0 then 1 else (env.win.sysinfoProcs : Int)) := by
  show windowsCountCores env.win = _
  rcases h with h | h <;> simp [windowsCountCores, winFallback, h]

/-- C9 witness: `envA` has an unresolvable entry point and 4 reported
logical processors. -/
theorem c9_windows_fallback_witness :
    UTIL_countCores Platform.windows envA
      = CRes.ret (if envA.win.sysinfoProcs = 0 then 1
                  else (envA.win.sysinfoProcs : Int)) :=
  c9_windows_fallback envA (Or.inl rfl)

/-- C10 (implicit): the topology-buffer walk reads an entry only when the
whole entry fits inside the reported length — it processes exactly the
first `returnLength / entrySizeBytes` entries, and those entries occupy at
most `returnLength` bytes, so the trailing partial bytes of a
`returnLength` that is not a multiple of the entry size are never read. -/
theorem c10_walk_reads_only_whole_entries (entries : List WinEntry) (returnLength : Nat) :
    winWalk returnLength entries 0
      = coreSum (entries.take (returnLength / entrySizeBytes))
    ∧ (returnLength / entrySizeBytes) * entrySizeBytes ≤ returnLength :=
  ⟨winWalk_from_start returnLength entries, Nat.div_mul_le_self _ _⟩

/-- C4: on FreeBSD, a failure of the physical-core sysctl query with
`ENOENT` falls through to the sysconf baseline (a normal return), while a
failure with any other errno terminates the process with status 1. -/
theorem c4_freebsd_error_severity (e : Nat) (threadsQ : Option Int) (sc : Int)
    (he : e ≠ ENOENT) :
    freebsdCountCores (SysctlOutcome.error ENOENT) threadsQ sc = posixCountCores sc
    ∧ freebsdCountCores (SysctlOutcome.error e) threadsQ sc = CRes.fatal 1 := by
  constructor
  · simp [freebsdCountCores]
  · simp [freebsdCountCores, he]

/-- C4 witness: errno 13 (`EACCES`) is fatal, `ENOENT` falls back to the
sysconf value 4. -/
theorem c4_freebsd_error_severity_witness :
    freebsdCountCores (SysctlOutcome.error ENOENT) none 4 = posixCountCores 4
    ∧ freebsdCountCores (SysctlOutcome.error 13) none 4 = CRes.fatal 1 :=
  c4_freebsd_error_severity 13 none 4 (by decide)

/-- C2: once the cache holds a value ≥ 1, every subsequent call returns
that identical value without re-running detection (the result no longer
depends on the environment), and two consecutive calls in the same process
return identical values. -/
theorem c2_memoization (p : Platform) (env env₂ : Env) (v c' : Int)
    (h : UTIL_countCoresCached p env 0 = (CRes.ret v, c')) :
    UTIL_countCoresCached p env c' = (CRes.ret v, c')
    ∧ (1 ≤ c' → UTIL_countCoresCached p env₂ c' = (CRes.ret c', c')) := by
  by_cases hp : p = Platform.unknown
  · subst hp
    have h1 : CRes.ret 1 = CRes.ret v := congrArg Prod.fst h
    have h2 : (0 : Int) = c' := congrArg Prod.snd h
    injection h1 with h1
    constructor
    · show ((CRes.ret 1, c') : CRes × Int) = (CRes.ret v, c')
      rw [← h1]
    · intro hc
      omega
  · rw [cached_eq_of_not_unknown p hp, if_neg (by omega : ¬((0 : Int) ≠ 0))] at h
    cases hU : UTIL_countCores p env with
    | ret w =>
        rw [hU] at h
        have h1 : CRes.ret w = CRes.ret v := congrArg Prod.fst h
        have h2 : w = c' := congrArg Prod.snd h
        injection h1 with h1
        subst h1
        subst h2
        constructor
        · rw [cached_eq_of_not_unknown p hp]
          by_cases hz : w ≠ 0
          · rw [if_pos hz]
          · rw [if_neg hz, hU]
        · intro hc
          rw [cached_eq_of_not_unknown p hp, if_pos (by omega : w ≠ 0)]
    | fatal s =>
        rw [hU] at h
        have h1 : CRes.fatal s = CRes.ret v := congrArg Prod.fst h
        cases h1

/-- C2 witness: on the generic POSIX platform with `sysconf = 4`, the first
call computes and caches 4; the cached call returns 4 again, and a later
call under a changed environment (`envB`) still returns the cached 4. -/
theorem c2_memoization_witness :
    UTIL_countCoresCached Platform.posixOther envA 4 = (CRes.ret 4, 4)
    ∧ (1 ≤ (4 : Int) →
        UTIL_countCoresCached Platform.posixOther envB 4 = (CRes.ret 4, 4)) :=
  c2_memoization Platform.posixOther envA envB 4 4 (by decide)

/-- C5: on Windows, when a complete topology buffer is obtained, the
returned count equals the sum, over exactly the entries whose relationship
is processor-core, of the population counts of their logical-processor
bitmasks — and `CountSetBits` is the population count for every
`ULONG_PTR` mask. -/
theorem c5_windows_topology_sum (entries : List WinEntry) (retLen procs : Nat)
    (hlen : retLen = entries.length * entrySizeBytes)
    (hmask : ∀ e, e ∈ entries → e.processorMask < 2 ^ 64) :
    (∀ m, m < 2 ^ 64 → CountSetBits m = popcount m)
    ∧ windowsCountCores ⟨GlpiOutcome.topology entries retLen, true, procs⟩
      = CRes.ret (((entries.filter
          (fun e => e.relationship == WinRelationship.relationProcessorCore)).map
          (fun e => popcount e.processorMask)).sum : Nat) := by
  constructor
  · exact fun m hm => CountSetBits_eq_popcount m hm
  · show (if 0 < retLen ∧ (true : Bool) = false then CRes.fatal 1
          else CRes.ret ((winWalk retLen entries 0 : Nat) : Int)) = _
    rw [if_neg (by simp)]
    have hw : winWalk retLen entries 0
        = ((entries.filter
            (fun e => e.relationship == WinRelationship.relationProcessorCore)).map
            (fun e => popcount e.processorMask)).sum := by
      have hdiv : retLen / entrySizeBytes = entries.length := by
        have h32 : entrySizeBytes = 32 := rfl
        rw [hlen, h32]
        omega
      rw [winWalk_from_start, hdiv, List.take_length]
      exact coreSum_eq_popcount_sum entries hmask
    rw [hw]

/-- C5 witness: three entries (core mask 3, NUMA mask 255, core mask 12) in
a complete 96-byte buffer yield 2 + 2 = 4, the NUMA entry excluded. -/
theorem c5_windows_topology_sum_witness :
    CountSetBits 12 = popcount 12
    ∧ windowsCountCores
        ⟨GlpiOutcome.topology
          [⟨WinRelationship.relationProcessorCore, 3⟩,
           ⟨WinRelationship.relationNumaNode, 255⟩,
           ⟨WinRelationship.relationProcessorCore, 12⟩] 96, true, 0⟩
      = CRes.ret 4 := by
  have hc := c5_windows_topology_sum
    [⟨WinRelationship.relationProcessorCore, 3⟩,
     ⟨WinRelationship.relationNumaNode, 255⟩,
     ⟨WinRelationship.relationProcessorCore, 12⟩] 96 0 (by decide) (by decide)
  exact ⟨hc.1 12 (by decide), hc.2.trans (by decide)⟩

/-- C1 counterexample: in an environment where the Apple logical-cpu sysctl
succeeds while reporting 0, the Apple backend stores and returns 0 — the
public operation does return zero, against the claim that it never does for
any backend and environment. -/
theorem c1_returns_zero_counterexample :
    UTIL_countCores Platform.apple { envA with appleLogical := some 0 }
      = CRes.ret 0 ∧ ¬(1 ≤ (0 : Int)) :=
  ⟨rfl, by omega⟩

/-- C1 (amended): for every platform backend, in every environment whose
successful OS queries report positive counts (`sysconf` answers -1 or a
value ≥ 1; the Apple logical-cpu value, the FreeBSD core count and
threads-per-core values are ≥ 1 when reported; a Windows topology buffer
contains, among the entries that fit in the returned length, at least one
processor-core entry with a set mask bit), every value `UTIL_countCores`
returns is ≥ 1 — it resolves to a positive integer or a fatal termination,
never to zero or an error sentinel. -/
theorem c1_amended_positive (p : Platform) (env : Env) (v : Int)
    (hsc : env.sysconfOnln = -1 ∨ 1 ≤ env.sysconfOnln)
    (hap : ∀ a, env.appleLogical = some a → 1 ≤ a)
    (hfc : ∀ c, env.fbsdCores = SysctlOutcome.ok c → 1 ≤ c)
    (hft : ∀ t, env.fbsdThreads = some t → 1 ≤ t)
    (hw : ∀ entries retLen, env.win.outcome = GlpiOutcome.topology entries retLen →
        ∃ e, e ∈ entries.take (retLen / entrySizeBytes)
          ∧ e.relationship = WinRelationship.relationProcessorCore
          ∧ e.processorMask % 2 ^ 64 ≠ 0)
    (h : UTIL_countCores p env = CRes.ret v) : 1 ≤ v := by
  cases p with
  | unknown =>
      injection h with h
      omega
  | posixOther => exact posix_ret_pos _ _ hsc h
  | linux =>
      have h' : linuxCountCores env.sysconfOnln env.cpuinfo = CRes.ret v := h
      rw [linux_refinement_no_effect] at h'
      exact posix_ret_pos _ _ hsc h'
  | apple =>
      have h' : appleCountCores env.appleLogical = CRes.ret v := h
      cases hq : env.appleLogical with
      | some a =>
          rw [hq] at h'
          injection h' with h'
          have := hap a hq
          omega
      | none =>
          rw [hq] at h'
          injection h' with h'
          omega
  | freebsd =>
      have h' : freebsdCountCores env.fbsdCores env.fbsdThreads env.sysconfOnln
          = CRes.ret v := h
      cases hq : env.fbsdCores with
      | ok c =>
          rw [hq] at h'
          have hc := hfc c hq
          cases ht : env.fbsdThreads with
          | none =>
              rw [ht] at h'
              injection h' with h'
              omega
          | some t =>
              rw [ht] at h'
              injection h' with h'
              have hts := hft t ht
              have hpos : (0 : Int) < c * t := mul_pos (by omega) (by omega)
              omega
      | error e =>
          rw [hq] at h'
          by_cases he : e = ENOENT
          · subst he
            rw [freebsdCountCores, if_neg (by omega)] at h'
            exact posix_ret_pos _ _ hsc h'
          · rw [freebsdCountCores, if_pos he] at h'
            cases h'
  | windows =>
      have h' : windowsCountCores env.win = CRes.ret v := h
      cases ho : env.win.outcome with
      | noEntryPoint =>
          simp only [windowsCountCores, ho, winFallback] at h'
          by_cases hp0 : env.win.sysinfoProcs = 0
          · rw [if_pos hp0] at h'
            injection h' with h'
            omega
          · rw [if_neg hp0] at h'
            injection h' with h'
            omega
      | otherError =>
          simp only [windowsCountCores, ho, winFallback] at h'
          by_cases hp0 : env.win.sysinfoProcs = 0
          · rw [if_pos hp0] at h'
            injection h' with h'
            omega
          · rw [if_neg hp0] at h'
            injection h' with h'
            omega
      | topology entries retLen =>
          obtain ⟨e, he, hcore, hmaskne⟩ := hw entries retLen ho
          simp only [windowsCountCores, ho] at h'
          by_cases hcond : 0 < retLen ∧ env.win.mallocOk = false
          · rw [if_pos hcond] at h'
            cases h'
          · rw [if_neg hcond] at h'
            injection h' with h'
            have hwalk := winWalk_from_start retLen entries
            have hle := coreContribution_le_coreSum e _ he
            have hce : coreContribution e = popcount (e.processorMask % 2 ^ 64) := by
              rw [coreContribution, if_pos hcore, CountSetBits_eq_popcount_mod]
            have hpos := popcount_pos _ hmaskne
            omega

/-- C1 witness: the FreeBSD backend on `envA` (cores 4, threads-per-core 2)
returns 8, a positive count. -/
theorem c1_amended_positive_witness :
    UTIL_countCores Platform.freebsd envA = CRes.ret 8 ∧ 1 ≤ (8 : Int) :=
  ⟨by decide,
   c1_amended_positive Platform.freebsd envA 8
    (Or.inr (by decide))
    (by intro a ha; simp [envA] at ha; omega)
    (by intro c hc; simp [envA] at hc; omega)
    (by intro t ht; simp [envA] at ht; omega)
    (by intro entries retLen hE; simp [envA] at hE)
    (by decide)⟩
